import Mathlib

/-!
Verification of the feed2context pipeline (`src/app2.py`).

The source is a small FastAPI application: a source classifier over the
input URL, two post-extraction strategies (a non-streaming completion call
for linkedin/unknown, a browser-automation result scraper for x), a query
builder with a deterministic fallback, a streaming answer call, and an
append-only JSON-lines report store.

External collaborators (the Groq completion client, `json.loads`, and the
browser-automation agent) are modelled by an abstract environment `Env`
whose fields give the outcome of each external call; the repository's own
control flow around those calls is transcribed directly from the source.
The JSON-lines file is modelled at the parsed level: each line is either
blank, malformed (json.loads raises), or a valid JSON value.
-/

/-- JSON values, the parsed form of what `json.loads` returns on success. -/
inductive JVal where
  | jnull
  | jbool (b : Bool)
  | jnum (n : Int)
  | jstr (s : String)
  | jarr (xs : List JVal)
  | jobj (fields : List (String × JVal))

/-- One line of the JSON-lines store file: blank (skipped by the reader),
malformed (json.loads raises, skipped), or a valid JSON value.  `json.dumps`
of a dict always produces a single valid non-blank line, so `_append_jsonl`
appends a `valid` line. -/
inductive JLine where
  | blank
  | malformed
  | valid (v : JVal)

/-- Lookup of a key in a JSON object, Python's `dict.get`. -/
def jGet (fields : List (String × JVal)) (k : String) : Option JVal :=
  (fields.find? (fun p => p.1 == k)).map (fun p => p.2)

/-- Python whitespace characters stripped by `str.strip()` (ASCII range). -/
def isPySpace (c : Char) : Bool :=
  c = ' ' || c = Char.ofNat 9 || c = Char.ofNat 10 || c = Char.ofNat 13 ||
  c = Char.ofNat 11 || c = Char.ofNat 12

/-- Strip leading and trailing whitespace from a character list. -/
def stripL (l : List Char) : List Char :=
  ((l.dropWhile isPySpace).reverse.dropWhile isPySpace).reverse

/-- Python's `str.strip()`. -/
def pyStrip (s : String) : String := String.mk (stripL s.data)

/-- Python's `a or b` for an optional string `a` (None and the empty string
are falsy) against a string default `b`. -/
def pyOrStr (o : Option String) (d : String) : String :=
  match o with
  | some s => if s = "" then d else s
  | none => d

/-- Decide whether `pat` is a prefix of `l`. -/
def isPrefixOfL : List Char → List Char → Bool
  | [], _ => true
  | _ :: _, [] => false
  | a :: as, b :: bs => a == b && isPrefixOfL as bs

/-- Decide whether `pat` occurs as a contiguous substring of `l`,
Python's `pat in l`. -/
def containsL (pat : List Char) : List Char → Bool
  | [] => isPrefixOfL pat []
  | c :: rest => isPrefixOfL pat (c :: rest) || containsL pat rest

/-- Python's `str.lower()` on the ASCII range, applied characterwise. -/
def pyLower (s : String) : String := String.mk (s.data.map Char.toLower)

/-- Source classifier `_detect_source` of `src/app2.py`: substring match on
the lowercased URL. -/
def _detect_source (url : String) : String :=
  let u := pyLower url
  if containsL "linkedin.com".data u.data then "linkedin"
  else if containsL "x.com".data u.data || containsL "twitter.com".data u.data then "x"
  else "unknown"

/-- The parse loop of `_read_reports`: blank lines are skipped by the
`if not line: continue` test, lines on which `json.loads` raises are skipped
by the inner `except`, and every valid line contributes its parsed value in
file order. -/
def validRecords (store : List JLine) : List JVal :=
  store.filterMap (fun l =>
    match l with
    | JLine.valid v => some v
    | _ => none)

/-- Number of valid JSON lines in the store file. -/
def validCount (store : List JLine) : Nat := (validRecords store).length

/-- Store reader `_read_reports` of `src/app2.py`: parse every line
best-effort, reverse, truncate to `limit`. -/
def _read_reports (store : List JLine) (limit : Nat) : List JVal :=
  ((validRecords store).reverse).take limit

/-- Store writer `_append_jsonl` of `src/app2.py`: serialize the record to
one JSON line and append it to the file (directory creation is filesystem
plumbing outside the model). -/
def _append_jsonl (store : List JLine) (data : JVal) : List JLine :=
  store ++ [JLine.valid data]

/-- The `GET /reports` handler `api_reports` of `src/app2.py`. -/
def api_reports (store : List JLine) : List JVal :=
  _read_reports store 200

/-- One element of the automation agent's result list, as probed by the
extractor: `isDone` is the truthiness of `getattr(r, 'is_done', False)`,
and `attr f` is the value of attribute `f` when it exists and is a string
(a missing attribute and a non-string value behave identically in every
probe, since each probe guards with `isinstance(value, str)`). -/
structure ActionRes where
  isDone : Bool
  attr : String → Option String

/-- Shape of the `final_result` attribute of the agent's result object:
a non-callable string, a non-callable non-string, a callable whose call
returns a value (string or not), or a callable whose call raises. -/
inductive FinalRes where
  | strVal (s : String)
  | otherVal
  | callableRet (v : Option String)
  | callableRaises

/-- The automation agent's result object, restricted to the attributes the
extractor probes: `finalRes` is the `final_result` attribute when present;
`iterYield` is the element list produced by `list(result)` when the object
is iterable (`none` when iteration raises); `allResultsAttr` is the
`all_results` attribute when it is a truthy list; `historyAll` is
`history.all_results` when `history` is truthy (`[]` when that attribute is
absent); `extractedContentAttr` is the `extracted_content` attribute when
it is a string; `strForm` is `str(result)`. -/
structure AutoResult where
  finalRes : Option FinalRes
  iterYield : Option (List ActionRes)
  allResultsAttr : Option (List ActionRes)
  historyAll : Option (List ActionRes)
  extractedContentAttr : Option String
  strForm : String

/-- The single-quote character, written numerically. -/
def squote : Char := Char.ofNat 39

/-- The literal `ActionResult(is_done=True` of the extractor's first regex. -/
def lit1 : List Char := "ActionResult(is_done=True".data

/-- The literal `extracted_content=` followed by a single quote, shared by
both of the extractor's regexes. -/
def lit2 : List Char := "extracted_content=".data ++ [squote]

/-- Scan `l` for the first occurrence of `lit` and return the suffix
following that occurrence; `fuel` bounds the recursion (callers pass
`l.length + 1`, which always suffices). -/
def findLit (lit : List Char) : Nat → List Char → Option (List Char)
  | 0, _ => none
  | _ + 1, [] => if isPrefixOfL lit [] then some [] else none
  | fuel + 1, c :: rest =>
      if isPrefixOfL lit (c :: rest) then some (List.drop lit.length (c :: rest))
      else findLit lit fuel rest

/-- Candidate scan of the extractor's first regex
`ActionResult\(is_done=True.*?extracted_content='([^']+)'.*?\)` after the
`is_done` literal: each occurrence of `extracted_content='` is tried in
order; a candidate matches when at least one non-quote character precedes
the next quote and a closing parenthesis occurs somewhere after it, which
is exactly the backtracking behaviour of the lazy pattern. -/
def candScan : Nat → List Char → Option String
  | 0, _ => none
  | fuel + 1, l =>
      match findLit lit2 (l.length + 1) l with
      | none => none
      | some after =>
          let run := after.takeWhile (fun ch => ch != squote)
          let rem := after.dropWhile (fun ch => ch != squote)
          match run, rem with
          | _ :: _, _ :: rem2 =>
              if containsL [')'] rem2 then some (String.mk run)
              else candScan fuel rem2
          | _, _ => candScan fuel after

/-- The extractor's `re.search` of
`ActionResult\(is_done=True.*?extracted_content='([^']+)'.*?\)` with
`re.DOTALL`, returning group 1: the search anchors at the first occurrence
of the `is_done` literal (a match from any later start would also match
from the first), then tries candidates left to right. -/
def searchDoneContent (s : String) : Option String :=
  match findLit lit1 (s.data.length + 1) s.data with
  | none => none
  | some after => candScan (after.length + 1) after

/-- Scanner behind `re.findall` of `extracted_content='([^']+)'`:
non-overlapping matches left to right, each capturing the non-empty run of
non-quote characters between the literal and the next quote. -/
def scanAllContent : Nat → List Char → List String
  | 0, _ => []
  | _ + 1, [] => []
  | fuel + 1, c :: rest =>
      if isPrefixOfL lit2 (c :: rest) then
        let after := List.drop lit2.length (c :: rest)
        let run := after.takeWhile (fun ch => ch != squote)
        let rem := after.dropWhile (fun ch => ch != squote)
        match run, rem with
        | _ :: _, _ :: rem2 => String.mk run :: scanAllContent fuel rem2
        | _, _ => scanAllContent fuel rest
      else scanAllContent fuel rest

/-- The extractor's `re.findall` of `extracted_content='([^']+)'`. -/
def findAllContent (s : String) : List String :=
  scanAllContent (s.data.length + 1) s.data

/-- Method 1 of the extractor: probe the `final_result` accessor.  A string
value (directly, or returned by calling a callable value) with truthy strip
is returned stripped; every other shape, including a raising callable,
falls through. -/
def method1 (fr : Option FinalRes) : Option String :=
  match fr with
  | some (FinalRes.strVal s) => if pyStrip s = "" then none else some (pyStrip s)
  | some (FinalRes.callableRet (some s)) =>
      if pyStrip s = "" then none else some (pyStrip s)
  | _ => none

/-- The computation of `all_results` in the extractor: iteration first, then
the `all_results` attribute, then `history.all_results`, each taken only
while the accumulator is still empty (falsy). -/
def computeAllResults (r : AutoResult) : List ActionRes :=
  let a1 := r.iterYield.getD []
  if a1.isEmpty then
    let a2 := r.allResultsAttr.getD []
    if a2.isEmpty then r.historyAll.getD [] else a2
  else a1

/-- Field names probed on a done sub-result, in source order. -/
def doneFieldNames : List String :=
  ["extracted_content", "content", "text", "result", "output"]

/-- Probe the named fields of a sub-result in order, returning the first
string value with truthy strip, stripped. -/
def firstField : List String → ActionRes → Option String
  | [], _ => none
  | f :: fs, a =>
      match a.attr f with
      | some v => if pyStrip v = "" then firstField fs a else some (pyStrip v)
      | none => firstField fs a

/-- Method 2 of the extractor: scan the sub-results for one whose `is_done`
flag is truthy and probe its fields; a done sub-result with no usable field
lets the loop continue. -/
def method2 : List ActionRes → Option String
  | [] => none
  | a :: rest =>
      if a.isDone then
        match firstField doneFieldNames a with
        | some s => some s
        | none => method2 rest
      else method2 rest

/-- Method 3 of the extractor: the `extracted_content` attribute of the
main result object, when it is a string with truthy strip. -/
def method3 (eca : Option String) : Option String :=
  match eca with
  | some c => if pyStrip c = "" then none else some (pyStrip c)
  | none => none

/-- Method 4 of the extractor: the last sub-result whose
`extracted_content` is a string with truthy strip, stripped. -/
def method4 (rs : List ActionRes) : Option String :=
  (rs.filterMap (fun r =>
    match r.attr "extracted_content" with
    | some v => if pyStrip v = "" then none else some (pyStrip v)
    | none => none)).getLast?

/-- Method 5 of the extractor: regex scans of `str(result)`, guarded by a
substring test for `extracted_content`.  The first pattern's group is
returned stripped with no emptiness check; the fallback pattern's last
match is returned only when its strip is truthy and does not start with
`Waited for`. -/
def method5 (sf : String) : Option String :=
  if containsL "extracted_content".data sf.data then
    match searchDoneContent sf with
    | some g => some (pyStrip g)
    | none =>
        match (findAllContent sf).getLast? with
        | none => none
        | some last =>
            let c := pyStrip last
            if c != "" && c != "Waited for" && !(String.isPrefixOf "Waited for" c)
            then some c else none
  else none

/-- Body of `_extract_x_post_with_browser_use` after `agent.run()` returned
a result object: the five recovery strategies tried in source order. -/
def extractFromAutoResult (r : AutoResult) : Option String :=
  match method1 r.finalRes with
  | some s => some s
  | none =>
      let rs := computeAllResults r
      match method2 rs with
      | some s => some s
      | none =>
          match method3 r.extractedContentAttr with
          | some s => some s
          | none =>
              match method4 rs with
              | some s => some s
              | none => method5 r.strForm

/-- Outcomes of the external collaborators for one request.  `hasKey` is
whether `GROQ_API_KEY` is set (when it is not, `_groq()` returns `None` and
the browser path prints and returns `None`).  For each completion call the
field gives `none` when the call raises (network error, malformed response
object) and otherwise the `message.content` value, itself optional because
the API may return a null content.  `parseJson` is `json.loads`, `none`
when it raises.  `agentRun` is the browser-automation run, `none` when
agent construction or `agent.run()` raises.  `searchDeltas` is the streamed
chunk list of the answer call, each delta an optional string, `none` when
the stream raises.  `now` is `datetime.utcnow().isoformat() + 'Z'`. -/
structure Env where
  hasKey : Bool
  extractContent : String → Option (Option String)
  shapeContent : String → String → Option (Option String)
  searchDeltas : String → Option (List (Option String))
  parseJson : String → Option JVal
  agentRun : String → Option AutoResult
  now : String

/-- Validation the extractor applies to a parsed response:
`isinstance(data, dict) and isinstance(data.get('post_text'), str)`. -/
def postTextOfJson (o : Option JVal) : Option String :=
  match o with
  | some (JVal.jobj fs) =>
      match jGet fs "post_text" with
      | some (JVal.jstr s) => some s
      | _ => none
  | _ => none

/-- Validation the query builder applies to a parsed response:
`isinstance(data, dict) and isinstance(data.get('query'), str)`. -/
def queryOfJson (o : Option JVal) : Option String :=
  match o with
  | some (JVal.jobj fs) =>
      match jGet fs "query" with
      | some (JVal.jstr s) => some s
      | _ => none
  | _ => none

/-- Post extractor `_extract_post_with_kimi` of `src/app2.py`: no client
means `None`; a raising call means `None`; otherwise strip the content
(`(... or '').strip()`), parse it, and return the `post_text` field when
the parse yields a dict holding a string there, else `None`. -/
def _extract_post_with_kimi (env : Env) (url : String) : Option String :=
  if env.hasKey then
    match env.extractContent url with
    | none => none
    | some mc => postTextOfJson (env.parseJson (pyStrip (mc.getD "")))
  else none

/-- Number of `completions.create` calls issued by
`_extract_post_with_kimi`: its body reaches the single call exactly when a
client was constructed. -/
def kimiExtractCalls (env : Env) : Nat := if env.hasKey then 1 else 0

/-- Query builder `_shape_query_with_kimi` of `src/app2.py`, with the same
failure structure as the extractor but validating a `query` field. -/
def _shape_query_with_kimi (env : Env) (post_text user_note : String) :
    Option String :=
  if env.hasKey then
    match env.shapeContent post_text user_note with
    | none => none
    | some mc => queryOfJson (env.parseJson (pyStrip (mc.getD "")))
  else none

/-- X-post extractor `_extract_x_post_with_browser_use` of `src/app2.py`:
no key means `None`; a raising agent run is swallowed by the outer handler
into `None`; otherwise the five recovery strategies run on the result. -/
def _extract_x_post_with_browser_use (env : Env) (url : String) :
    Option String :=
  if env.hasKey then
    match env.agentRun url with
    | none => none
    | some r => extractFromAutoResult r
  else none

/-- Answer synthesizer `_compound_search` of `src/app2.py`: no client or a
raising stream yields the empty string; otherwise the truthy deltas of the
stream are concatenated. -/
def _compound_search (env : Env) (query : String) : String :=
  if env.hasKey then
    match env.searchDeltas query with
    | none => ""
    | some deltas =>
        String.join (deltas.filterMap (fun d =>
          match d with
          | some s => if s = "" then none else some s
          | none => none))
  else ""

/-- A persisted record, the dict built by the `trigger` handler. -/
structure Report where
  timestamp : String
  post_url : String
  user_note : String
  source : String
  post_text : String
  query : String
  compound_answer : String
deriving DecidableEq, Repr

/-- Serialization of a report to the JSON object written by
`_append_jsonl`, with the fields in the order of the source's dict
literal. -/
def reportToJson (r : Report) : JVal :=
  JVal.jobj
    [("timestamp", JVal.jstr r.timestamp),
     ("post_url", JVal.jstr r.post_url),
     ("user_note", JVal.jstr r.user_note),
     ("source", JVal.jstr r.source),
     ("post_text", JVal.jstr r.post_text),
     ("query", JVal.jstr r.query),
     ("compound_answer", JVal.jstr r.compound_answer)]

/-- Step 2 of the `trigger` handler:
`_shape_query_with_kimi(post_text, req.note) or f"{req.note} (source: {source})"`. -/
def queryStep (env : Env) (post_text note source : String) : String :=
  pyOrStr (_shape_query_with_kimi env post_text note)
    (note ++ " (source: " ++ source ++ ")")

/-- The `POST /trigger` handler of `src/app2.py`, as the record it builds:
classify the source, extract the post text through the source-specific
strategy (`or ''`), build the query with fallback, run the answer call, and
assemble the record. -/
def trigger (env : Env) (url note : String) : Report :=
  let source := _detect_source url
  let post_text :=
    if source = "x" then pyOrStr (_extract_x_post_with_browser_use env url) ""
    else pyOrStr (_extract_post_with_kimi env url) ""
  let query := queryStep env post_text note source
  let compound_answer := _compound_search env query
  { timestamp := env.now
    post_url := url
    user_note := note
    source := source
    post_text := post_text
    query := query
    compound_answer := compound_answer }

/-- The `POST /trigger` handler with its persistence effect: the built
record is appended to the store file and the same record is returned to
the caller. -/
def triggerStep (env : Env) (store : List JLine) (url note : String) :
    List JLine × Report :=
  let r := trigger env url note
  (_append_jsonl store (reportToJson r), r)

/-- Failure of the query-building completion step, covering every way the
source's `except`/validation paths can be taken: no client, a raising
call, or a response whose stripped content does not parse to a dict with a
string `query` field. -/
def shapeFailure (env : Env) (post_text note : String) : Prop :=
  env.hasKey = false ∨
  env.shapeContent post_text note = none ∨
  (∀ mc, env.shapeContent post_text note = some mc →
    queryOfJson (env.parseJson (pyStrip (mc.getD ""))) = none)

/-- Failure of the extraction completion step, the analogue of
`shapeFailure` for the `post_text` field. -/
def kimiFailure (env : Env) (url : String) : Prop :=
  env.hasKey = false ∨
  env.extractContent url = none ∨
  (∀ mc, env.extractContent url = some mc →
    postTextOfJson (env.parseJson (pyStrip (mc.getD ""))) = none)

/-- Whether a store line is a valid JSON line. -/
def isValidLine : JLine → Bool
  | JLine.valid _ => true
  | _ => false

/-- An environment in which every external call fails: no API key is set,
every completion call and the agent run raise, and parsing fails. -/
def failEnv : Env where
  hasKey := false
  extractContent := fun _ => none
  shapeContent := fun _ _ => none
  searchDeltas := fun _ => none
  parseJson := fun _ => none
  agentRun := fun _ => none
  now := "2024-01-01T00:00:00Z"

/-- An environment in which the API key is set but every external call
raises. -/
def raiseEnv : Env where
  hasKey := true
  extractContent := fun _ => none
  shapeContent := fun _ _ => none
  searchDeltas := fun _ => none
  parseJson := fun _ => none
  agentRun := fun _ => none
  now := "2024-01-01T00:00:00Z"

/-- A store file holding one more valid line than the reader's default
limit of 100. -/
def overfullStore : List JLine := List.replicate 101 (JLine.valid JVal.jnull)

/-- An automation result whose only recoverable text is the string form of
a done `ActionResult` carrying a whitespace-only `extracted_content`
(written without quote characters in the literal). -/
def whitespaceAuto : AutoResult where
  finalRes := none
  iterYield := none
  allResultsAttr := none
  historyAll := none
  extractedContentAttr := none
  strForm := String.mk ("ActionResult(is_done=True, extracted_content=".data
    ++ [squote] ++ "   ".data ++ [squote] ++ ", success)".data)

/-- An automation result whose `final_result` accessor holds ordinary
extracted text. -/
def sampleAuto : AutoResult where
  finalRes := some (FinalRes.strVal "Author: A. Tweet: hello")
  iterYield := none
  allResultsAttr := none
  historyAll := none
  extractedContentAttr := none
  strForm := "AgentHistoryList"

/-- A result of `List.dropWhile` never starts with a character satisfying
the predicate. -/
theorem dropWhile_head_false {p : Char → Bool} :
    ∀ {l c t}, List.dropWhile p l = c :: t → p c = false := by
  intro l
  induction l with
  | nil => intro c t h; simp [List.dropWhile] at h
  | cons a as ih =>
      intro c t h
      rw [List.dropWhile_cons] at h
      by_cases ha : p a
      · rw [if_pos ha] at h; exact ih h
      · rw [if_neg ha] at h
        cases h
        simpa using ha

/-- `List.dropWhile` is idempotent. -/
theorem dropWhile_dropWhile {p : Char → Bool} (l : List Char) :
    (l.dropWhile p).dropWhile p = l.dropWhile p := by
  cases h : l.dropWhile p with
  | nil => simp
  | cons c t =>
      have hc := dropWhile_head_false h
      rw [List.dropWhile_cons, if_neg (by simp [hc])]

/-- The right strip is a prefix of its argument. -/
theorem rstrip_prefix {p : Char → Bool} (m : List Char) :
    ((m.reverse.dropWhile p).reverse) <+: m := by
  have hsuf : m.reverse.dropWhile p <:+ m.reverse := List.dropWhile_suffix p
  have h := List.reverse_prefix.mpr hsuf
  rwa [List.reverse_reverse] at h

/-- Left-stripping a right-stripped list that has no leading whitespace
changes nothing. -/
theorem ldrop_rstrip {p : Char → Bool} (m : List Char)
    (hm : m.dropWhile p = m) :
    ((m.reverse.dropWhile p).reverse).dropWhile p =
      (m.reverse.dropWhile p).reverse := by
  cases hcase : (m.reverse.dropWhile p).reverse with
  | nil => simp
  | cons c t =>
      obtain ⟨u, hu⟩ := rstrip_prefix (p := p) m
      rw [hcase] at hu
      have hmc : m.dropWhile p = c :: (t ++ u) := by
        rw [hm, ← hu]; simp
      have hc := dropWhile_head_false hmc
      rw [List.dropWhile_cons, if_neg (by simp [hc])]

/-- Stripping both ends is idempotent. -/
theorem stripL_idem (l : List Char) : stripL (stripL l) = stripL l := by
  unfold stripL
  rw [ldrop_rstrip (l.dropWhile isPySpace) (dropWhile_dropWhile l),
      List.reverse_reverse, dropWhile_dropWhile]

/-- Python's `strip` is idempotent. -/
theorem pyStrip_idem (s : String) : pyStrip (pyStrip s) = pyStrip s := by
  unfold pyStrip
  exact congrArg String.mk (stripL_idem s.data)

/-- The last element of a list is a member. -/
theorem getLast?_mem_of {α : Type} {l : List α} {a : α}
    (h : l.getLast? = some a) : a ∈ l := by
  have hm : a ∈ l.getLast? := by simpa [Option.mem_def] using h
  obtain ⟨hne, heq⟩ := List.mem_getLast?_eq_getLast hm
  subst heq
  exact List.getLast_mem hne

/-- Removing the non-valid lines of a store does not change its parsed
records. -/
theorem validRecords_filter (store : List JLine) :
    validRecords (store.filter isValidLine) = validRecords store := by
  induction store with
  | nil => rfl
  | cons a t ih => cases a <;> simp [validRecords, isValidLine, List.filter_cons, ih] <;>
      simpa [validRecords] using ih

/-- The classifier can only produce its three labels. -/
theorem detect_source_cases (url : String) :
    _detect_source url = "linkedin" ∨ _detect_source url = "x" ∨
      _detect_source url = "unknown" := by
  unfold _detect_source
  by_cases h1 : containsL "linkedin.com".data (pyLower url).data
  · simp [h1]
  · by_cases h2 : (containsL "x.com".data (pyLower url).data ||
        containsL "twitter.com".data (pyLower url).data) = true
    · simp [h1, h2]
    · simp [h1, h2]

/-- C2: for every URL the classifier returns `linkedin` exactly when the
lowercased URL contains `linkedin.com`, returns `x` exactly when it does
not contain `linkedin.com` but contains `x.com` or `twitter.com`, and
returns `unknown` exactly when it contains none of the three; the match is
performed case-insensitively (on the lowercased URL) and the function is
total, with no error cases. -/
theorem detect_source_classification (url : String) :
    (_detect_source url = "linkedin" ↔
      containsL "linkedin.com".data (pyLower url).data = true) ∧
    (_detect_source url = "x" ↔
      (containsL "linkedin.com".data (pyLower url).data = false ∧
       (containsL "x.com".data (pyLower url).data ||
        containsL "twitter.com".data (pyLower url).data) = true)) ∧
    (_detect_source url = "unknown" ↔
      (containsL "linkedin.com".data (pyLower url).data = false ∧
       containsL "x.com".data (pyLower url).data = false ∧
       containsL "twitter.com".data (pyLower url).data = false)) := by
  unfold _detect_source
  by_cases h1 : containsL "linkedin.com".data (pyLower url).data
  · simp [h1]
  · by_cases h2 : containsL "x.com".data (pyLower url).data
    · simp [h1, h2]
    · by_cases h3 : containsL "twitter.com".data (pyLower url).data
      · simp [h1, h2, h3]
      · simp [h1, h2, h3]

/-- C4: appending a record and then listing with limit 1 returns exactly
the just-appended record as the sole element. -/
theorem append_then_list_one (store : List JLine) (v : JVal) :
    _read_reports (_append_jsonl store v) 1 = [v] := by
  simp [_read_reports, _append_jsonl, validRecords, List.filterMap_append]

/-- C5: listing with limit `k` returns at most `k` records, and those
records are exactly the `k` most recently appended valid records in
newest-first order; the `GET /reports` handler is this read with
limit 200. -/
theorem read_reports_limit_spec (store : List JLine) (k : Nat) :
    (_read_reports store k).length ≤ k ∧
    _read_reports store k =
      ((validRecords store).drop ((validRecords store).length - k)).reverse ∧
    api_reports store = _read_reports store 200 := by
  refine ⟨?_, ?_, rfl⟩
  · simp [_read_reports, List.length_take]
  · unfold _read_reports
    have h := List.reverse_take (l := (validRecords store).reverse) (n := k)
    rw [List.reverse_reverse, List.length_reverse] at h
    calc List.take k (validRecords store).reverse
        = (List.take k (validRecords store).reverse).reverse.reverse := by
          rw [List.reverse_reverse]
      _ = ((validRecords store).drop ((validRecords store).length - k)).reverse := by
          rw [h]

/-- C6 (counterexample): on a store of 101 valid lines the reader, at its
default limit of 100, returns 100 records, not the 101 valid ones the
claim requires. -/
theorem read_reports_drops_valid_records :
    validCount overfullStore = 101 ∧
    (_read_reports overfullStore 100).length = 100 := by
  constructor
  · decide
  · decide

/-- C6 (amended): listing returns exactly `min N limit` records where `N`
is the number of valid lines; every returned record comes from a valid
line, and the malformed and blank lines are skipped silently, so that
deleting them from the store changes nothing. -/
theorem read_reports_skips_malformed (store : List JLine) (limit : Nat) :
    (_read_reports store limit).length = min (validCount store) limit ∧
    _read_reports store limit ⊆ validRecords store ∧
    _read_reports (store.filter isValidLine) limit =
      _read_reports store limit := by
  refine ⟨?_, ?_, ?_⟩
  · simp [_read_reports, List.length_take, validCount, Nat.min_comm]
  · intro v hv
    have h1 : v ∈ (validRecords store).reverse :=
      List.mem_of_mem_take hv
    exact List.mem_reverse.mp h1
  · unfold _read_reports
    rw [validRecords_filter]

/-- Every failure mode of the query-building completion step yields `None`
from `_shape_query_with_kimi`. -/
theorem shape_none_of_failure (env : Env) (pt note : String)
    (h : shapeFailure env pt note) :
    _shape_query_with_kimi env pt note = none := by
  rcases h with h | h | h
  · simp [_shape_query_with_kimi, h]
  · simp [_shape_query_with_kimi, h]
  · cases hs : env.shapeContent pt note with
    | none => simp [_shape_query_with_kimi, hs]
    | some mc => simp [_shape_query_with_kimi, hs, h mc hs]

/-- Every failure mode of the extraction completion step yields `None`
from `_extract_post_with_kimi`. -/
theorem kimi_none_of_failure (env : Env) (url : String)
    (h : kimiFailure env url) :
    _extract_post_with_kimi env url = none := by
  rcases h with h | h | h
  · simp [_extract_post_with_kimi, h]
  · simp [_extract_post_with_kimi, h]
  · cases hs : env.extractContent url with
    | none => simp [_extract_post_with_kimi, hs]
    | some mc => simp [_extract_post_with_kimi, hs, h mc hs]

/-- C3: whenever the completion service is unreachable for the query
builder (no client, a raising call, or an unusable response), the query
step of the handler produces exactly the fallback string
`note ++ " (source: " ++ source ++ ")"`. -/
theorem query_step_fallback (env : Env) (post_text note source : String)
    (h : shapeFailure env post_text note) :
    queryStep env post_text note source =
      note ++ " (source: " ++ source ++ ")" := by
  unfold queryStep
  rw [shape_none_of_failure env post_text note h]
  rfl

/-- Witness for C3: in the environment with no API key the fallback fires
and produces the exact templated string. -/
theorem query_step_fallback_witness :
    shapeFailure failEnv "some post text" "summarize" ∧
    queryStep failEnv "some post text" "summarize" "x" =
      "summarize (source: x)" := by
  refine ⟨Or.inl rfl, ?_⟩
  rw [query_step_fallback failEnv "some post text" "summarize" "x" (Or.inl rfl)]
  decide

/-- C7: on any failure of the completion-based post extractor (no client,
network error, malformed JSON, missing or non-string `post_text` field)
the function returns `None`, which the handler's `or ''` turns into the
empty post text; no failure is surfaced, and the body issues its single
non-streaming completion call exactly when a client exists. -/
theorem extract_kimi_swallows (env : Env) (url : String)
    (h : kimiFailure env url) :
    _extract_post_with_kimi env url = none ∧
    pyOrStr (_extract_post_with_kimi env url) "" = "" ∧
    (env.hasKey = true → kimiExtractCalls env = 1) := by
  have hnone := kimi_none_of_failure env url h
  refine ⟨hnone, ?_, ?_⟩
  · rw [hnone]; rfl
  · intro hk
    simp [kimiExtractCalls, hk]

/-- Witness for C7: with a client whose call raises, the extractor issued
its one call, returns `None`, and the pipeline's post text is empty. -/
theorem extract_kimi_swallows_witness :
    _extract_post_with_kimi raiseEnv "https://linkedin.com/in/someone" = none ∧
    pyOrStr (_extract_post_with_kimi raiseEnv "https://linkedin.com/in/someone") "" = "" ∧
    kimiExtractCalls raiseEnv = 1 := by
  have h := extract_kimi_swallows raiseEnv "https://linkedin.com/in/someone"
    (Or.inr (Or.inl rfl))
  exact ⟨h.1, h.2.1, h.2.2 rfl⟩

/-- The query step always produces a string of positive length: a
successful completion result is used only when truthy, and the fallback
contains the literal `(source: )` text. -/
theorem queryStep_length_pos (env : Env) (post_text note source : String) :
    0 < (queryStep env post_text note source).length := by
  unfold queryStep pyOrStr
  have hfb : 0 < (note ++ " (source: " ++ source ++ ")").length := by
    rw [String.length_append, String.length_append, String.length_append]
    have h10 : (" (source: " : String).length = 10 := by decide
    have hc : ((")" : String)).length = 1 := by decide
    omega
  cases h : _shape_query_with_kimi env post_text note with
  | none => simpa using hfb
  | some q =>
    by_cases hq : q = ""
    · simpa [hq] using hfb
    · have : 0 < q.length := by
        cases hql : q.length with
        | zero =>
            exfalso
            apply hq
            cases q with
            | mk data =>
                cases data with
                | nil => rfl
                | cons c cs => simp [String.length] at hql
        | succ n => omega
      simpa [hq] using this

/-- C9: the query produced by the Query Builder step, whether from a
successful completion call or from the fallback, is a non-empty string;
consequently the query field of every report built by the trigger handler
is non-empty. -/
theorem query_always_nonempty :
    (∀ (env : Env) (post_text note source : String),
      0 < (queryStep env post_text note source).length) ∧
    (∀ (env : Env) (url note : String),
      0 < (trigger env url note).query.length) := by
  refine ⟨fun env pt note source => queryStep_length_pos env pt note source, ?_⟩
  intro env url note
  exact queryStep_length_pos env _ note _

/-- C1: when both extraction strategies yield nothing, the query-building
completion fails, and the answer call on the fallback query yields the
empty string, the trigger handler still returns a complete report whose
post text is empty, whose query is the templated fallback, and whose
answer is empty. -/
theorem trigger_degrades_to_fallback (env : Env) (url note : String)
    (h1 : _extract_post_with_kimi env url = none)
    (h2 : _extract_x_post_with_browser_use env url = none)
    (h3 : _shape_query_with_kimi env "" note = none)
    (h4 : _compound_search env
      (note ++ " (source: " ++ _detect_source url ++ ")") = "") :
    trigger env url note =
      { timestamp := env.now
        post_url := url
        user_note := note
        source := _detect_source url
        post_text := ""
        query := note ++ " (source: " ++ _detect_source url ++ ")"
        compound_answer := "" } := by
  have hpt : (if _detect_source url = "x"
      then pyOrStr (_extract_x_post_with_browser_use env url) ""
      else pyOrStr (_extract_post_with_kimi env url) "") = "" := by
    by_cases hs : _detect_source url = "x" <;> simp [hs, h1, h2, pyOrStr]
  have hq : queryStep env "" note (_detect_source url) =
      note ++ " (source: " ++ _detect_source url ++ ")" := by
    unfold queryStep
    rw [h3]
    rfl
  simp only [trigger]
  rw [hpt, hq, h4]

/-- Witness for C1: the end-to-end scenario of the spec, with every
external call failing: the report's source is `x`, its note is preserved,
its post text is empty, and its query is the fallback string. -/
theorem trigger_degrades_witness :
    (trigger failEnv "https://x.com/foo/status/1" "summarize").source = "x" ∧
    (trigger failEnv "https://x.com/foo/status/1" "summarize").user_note =
      "summarize" ∧
    (trigger failEnv "https://x.com/foo/status/1" "summarize").post_text = "" ∧
    (trigger failEnv "https://x.com/foo/status/1" "summarize").query =
      "summarize (source: x)" := by
  have h := trigger_degrades_to_fallback failEnv "https://x.com/foo/status/1"
    "summarize" rfl rfl rfl rfl
  rw [h]
  refine ⟨by decide, rfl, rfl, by decide⟩

/-- C10: for every trigger request the record appended to the store is
the serialization of exactly the report returned to the caller, the
report's `post_url` is the request URL, its `user_note` is the request
note, and its `source` is one of the three classifier labels. -/
theorem trigger_response_is_persisted (env : Env) (store : List JLine)
    (url note : String) :
    (triggerStep env store url note).2 = trigger env url note ∧
    (triggerStep env store url note).1 =
      store ++ [JLine.valid (reportToJson (trigger env url note))] ∧
    (trigger env url note).post_url = url ∧
    (trigger env url note).user_note = note ∧
    ((trigger env url note).source = "linkedin" ∨
     (trigger env url note).source = "x" ∨
     (trigger env url note).source = "unknown") := by
  refine ⟨rfl, rfl, rfl, rfl, ?_⟩
  have hsrc : (trigger env url note).source = _detect_source url := rfl
  rw [hsrc]
  exact detect_source_cases url

/-- Common shape of a guarded strip-and-return: the produced string is
stripped and non-empty. -/
theorem strip_guard_some {s0 s : String} (hg : ¬ pyStrip s0 = "")
    (h : pyStrip s0 = s) : pyStrip s = s ∧ s ≠ "" := by
  constructor
  · rw [← h, pyStrip_idem]
  · rw [← h]; exact hg

/-- Strings produced by the `final_result` probe are stripped and
non-empty. -/
theorem method1_some {fr : Option FinalRes} {s : String}
    (h : method1 fr = some s) : pyStrip s = s ∧ s ≠ "" := by
  cases fr with
  | none => simp [method1] at h
  | some f =>
      cases f with
      | strVal s0 =>
          by_cases h0 : pyStrip s0 = ""
          · simp [method1, h0] at h
          · simp [method1, h0] at h
            exact strip_guard_some h0 h
      | otherVal => simp [method1] at h
      | callableRet v =>
          cases v with
          | none => simp [method1] at h
          | some s0 =>
              by_cases h0 : pyStrip s0 = ""
              · simp [method1, h0] at h
              · simp [method1, h0] at h
                exact strip_guard_some h0 h
      | callableRaises => simp [method1] at h

/-- Strings produced by the field probe of a done sub-result are stripped
and non-empty. -/
theorem firstField_some :
    ∀ (fs : List String) (a : ActionRes) {s : String},
      firstField fs a = some s → pyStrip s = s ∧ s ≠ "" := by
  intro fs
  induction fs with
  | nil => intro a s h; simp [firstField] at h
  | cons f fs ih =>
      intro a s h
      unfold firstField at h
      cases hv : a.attr f with
      | none => rw [hv] at h; exact ih a h
      | some v =>
          have h2 : (if pyStrip v = "" then firstField fs a
              else some (pyStrip v)) = some s := by
            rw [hv] at h; exact h
          by_cases h0 : pyStrip v = ""
          · rw [if_pos h0] at h2; exact ih a h2
          · rw [if_neg h0] at h2
            exact strip_guard_some h0 (Option.some.inj h2)

/-- Strings produced by the done-flag scan are stripped and non-empty. -/
theorem method2_some :
    ∀ (rs : List ActionRes) {s : String},
      method2 rs = some s → pyStrip s = s ∧ s ≠ "" := by
  intro rs
  induction rs with
  | nil => intro s h; simp [method2] at h
  | cons a rest ih =>
      intro s h
      unfold method2 at h
      by_cases hd : a.isDone
      · rw [if_pos hd] at h
        cases hf : firstField doneFieldNames a with
        | none => rw [hf] at h; exact ih h
        | some s0 =>
            rw [hf] at h
            cases h
            exact firstField_some doneFieldNames a hf
      · rw [if_neg hd] at h; exact ih h

/-- Strings produced by the `extracted_content` attribute probe are
stripped and non-empty. -/
theorem method3_some {eca : Option String} {s : String}
    (h : method3 eca = some s) : pyStrip s = s ∧ s ≠ "" := by
  cases eca with
  | none => simp [method3] at h
  | some c =>
      by_cases h0 : pyStrip c = ""
      · simp [method3, h0] at h
      · simp [method3, h0] at h
        exact strip_guard_some h0 h

/-- Strings produced by the last-extracted-content scan are stripped and
non-empty. -/
theorem method4_some {rs : List ActionRes} {s : String}
    (h : method4 rs = some s) : pyStrip s = s ∧ s ≠ "" := by
  unfold method4 at h
  have hm := getLast?_mem_of h
  obtain ⟨a, _, ha⟩ := List.mem_filterMap.mp hm
  cases hv : a.attr "extracted_content" with
  | none =>
      have h2 : (none : Option String) = some s := by rw [hv] at ha; exact ha
      exact absurd h2 (by simp)
  | some v =>
      have h2 : (if pyStrip v = "" then none
          else some (pyStrip v)) = some s := by
        rw [hv] at ha; exact ha
      by_cases h0 : pyStrip v = ""
      · rw [if_pos h0] at h2; exact absurd h2 (by simp)
      · rw [if_neg h0] at h2
        exact strip_guard_some h0 (Option.some.inj h2)

/-- Strings produced by the string-form regex scans are stripped; only the
primary pattern can produce an empty string, and then only because the
captured group strips to empty. -/
theorem method5_some {sf : String} {s : String}
    (h : method5 sf = some s) :
    pyStrip s = s ∧
    (s = "" → ∃ g, searchDoneContent sf = some g ∧ pyStrip g = "") := by
  unfold method5 at h
  by_cases hc : containsL "extracted_content".data sf.data
  · rw [if_pos hc] at h
    cases hsr : searchDoneContent sf with
    | some g =>
        have h2 : some (pyStrip g) = some s := by rw [hsr] at h; exact h
        have hs2 : s = pyStrip g := (Option.some.inj h2).symm
        subst hs2
        exact ⟨pyStrip_idem g, fun he => ⟨g, rfl, he⟩⟩
    | none =>
        cases hgl : (findAllContent sf).getLast? with
        | none =>
            have h2 : (none : Option String) = some s := by
              rw [hsr, hgl] at h; exact h
            exact absurd h2 (by simp)
        | some last =>
            have h2 : (if pyStrip last != "" && pyStrip last != "Waited for" &&
                !(String.isPrefixOf "Waited for" (pyStrip last))
                then some (pyStrip last) else none) = some s := by
              rw [hsr, hgl] at h; exact h
            by_cases hcond : (pyStrip last != "" && pyStrip last != "Waited for" &&
                !(String.isPrefixOf "Waited for" (pyStrip last))) = true
            · rw [if_pos hcond] at h2
              have hs2 : s = pyStrip last := (Option.some.inj h2).symm
              subst hs2
              have hne : pyStrip last ≠ "" := by
                have hx := (Bool.and_eq_true _ _).mp hcond
                have hy := (Bool.and_eq_true _ _).mp hx.1
                simpa using hy.1
              obtain ⟨ha2, hb2⟩ := strip_guard_some hne rfl
              exact ⟨ha2, fun he => absurd he hb2⟩
            · rw [if_neg hcond] at h2
              exact absurd h2 (by simp)
  · rw [if_neg hc] at h
    exact absurd h (by simp)

/-- C8 (amended): every string the X-post extractor returns is stripped,
and it is non-empty except in the one branch the counterexample exhibits:
the primary regex scan of the result's string form, whose captured group
may strip to empty; when no strategy finds recognizable text the extractor
returns `None`, and it never raises (it is a total function into
`Option String`). -/
theorem extract_x_returns_stripped (r : AutoResult) (s : String)
    (h : extractFromAutoResult r = some s) :
    pyStrip s = s ∧
    (s = "" → ∃ g, searchDoneContent r.strForm = some g ∧ pyStrip g = "") := by
  unfold extractFromAutoResult at h
  cases h1 : method1 r.finalRes with
  | some s1 =>
      rw [h1] at h
      simp at h
      subst h
      obtain ⟨ha, hb⟩ := method1_some h1
      exact ⟨ha, fun he => absurd he hb⟩
  | none =>
      rw [h1] at h
      simp only at h
      cases h2 : method2 (computeAllResults r) with
      | some s2 =>
          rw [h2] at h
          simp at h
          subst h
          obtain ⟨ha, hb⟩ := method2_some (computeAllResults r) h2
          exact ⟨ha, fun he => absurd he hb⟩
      | none =>
          rw [h2] at h
          simp only at h
          cases h3 : method3 r.extractedContentAttr with
          | some s3 =>
              rw [h3] at h
              simp at h
              subst h
              obtain ⟨ha, hb⟩ := method3_some h3
              exact ⟨ha, fun he => absurd he hb⟩
          | none =>
              rw [h3] at h
              simp only at h
              cases h4 : method4 (computeAllResults r) with
              | some s4 =>
                  rw [h4] at h
                  simp at h
                  subst h
                  obtain ⟨ha, hb⟩ := method4_some h4
                  exact ⟨ha, fun he => absurd he hb⟩
              | none =>
                  rw [h4] at h
                  simp only at h
                  exact method5_some h

/-- Witness for C8 (amended): a result whose `final_result` accessor holds
ordinary text makes the extractor return that text, stripped and
non-empty. -/
theorem extract_x_returns_stripped_witness :
    pyStrip "Author: A. Tweet: hello" = "Author: A. Tweet: hello" ∧
    ("Author: A. Tweet: hello" = "" →
      ∃ g, searchDoneContent sampleAuto.strForm = some g ∧ pyStrip g = "") := by
  exact extract_x_returns_stripped sampleAuto "Author: A. Tweet: hello" (by decide)

/-- C8 (counterexample): on an automation result whose string form carries
a done `ActionResult` with whitespace-only extracted content, the
extractor returns the empty string, which is neither `None` nor a
non-empty string. -/
theorem extract_x_empty_string_result :
    extractFromAutoResult whitespaceAuto = some "" ∧
    ("" : String).length = 0 := by
  exact ⟨by decide, rfl⟩
